import Mathlib

/-!
Shallow embedding of the ranking / cart construction core of the
corporate-retreat planner backend (directory `backend/src`):

* `ScoringService`  — `services/scoring_service.py`
* `RankingAgent`    — `agents/ranking_agent.py`
* `CartAgent`       — `agents/cart_agent.py`
* `RetreatPlannerCrew.modify_cart` — `crew/retreat_crew.py`

Python floats are modelled as `ℚ`; Python's `round(x, 2)` is modelled as
rounding to the nearest multiple of 1/100 (`round2`).  Python dicts that the
code iterates over are modelled as association lists (Python dicts preserve
insertion order), and `dict.get(k, d)` is modelled with `Option`-valued
fields / `List.lookup` plus `Option.getD`.  Sources of nondeterminism that
the code consults (`uuid.uuid4`, `datetime.now`, `random.uniform`) are
passed in explicitly through an `Env` record.  Display-only data (the
`explanation` blocks, per-component score breakdowns, `package_id`,
`requirements_summary`) is not modelled: no claim mentions it.
-/

/-- Python's `round(x, 2)`: round to the nearest multiple of 1/100 (the
half-integer tie, which for binary floats essentially never arises exactly,
is sent upward by Mathlib's `round`). -/
def round2 (q : ℚ) : ℚ := ((round (q * 100) : ℤ) : ℚ) / 100

theorem round2_err (q : ℚ) : |round2 q - q| ≤ 1 / 200 := by
  have h := abs_sub_round (q * 100)
  rw [abs_sub_comm] at h
  have hq : round2 q - q = ((round (q * 100) : ℤ) - q * 100 : ℚ) / 100 := by
    rw [round2]; ring
  rw [hq, abs_div, abs_of_pos (by norm_num : (0 : ℚ) < 100)]
  linarith

theorem round2_intCast (k : ℤ) : round2 (((k : ℚ)) / 100) = (k : ℚ) / 100 := by
  have : ((k : ℚ) / 100) * 100 = (k : ℚ) := by field_simp
  rw [round2, this, round_intCast]

theorem round2_round2 (q : ℚ) : round2 (round2 q) = round2 q := round2_intCast _

/-- A discovered item (the `DiscoveredItem` records produced by the discovery
agent and consumed read-only by ranking and cart code).  `trust_score` holds
the `rating` entry of the `trust_score` dict when one is present (`none`
models a missing / non-dict `trust_score`).  The `metadata` dict is split
into the four keys the scoring code reads; `capacity` is `none` when the
`capacity` key is absent (the code then falls back to 50). -/
structure Item where
  item_id : String
  category : String
  vendor : String
  price : ℚ
  availability : Bool
  amenities : List String
  equipment : List String
  dietary_options : List String
  capacity : Option ℚ
  trust_score : Option ℚ
deriving DecidableEq, Repr

/-- A requirements record.  Fields are `Option`-valued because the code reads
every one of them with `dict.get(key, default)`. -/
structure Requirements where
  attendees : Option ℕ
  budget : Option ℚ
  duration : Option String
  location : Option String
  origin : Option String
deriving DecidableEq, Repr

namespace ScoringService

/-- Model of `ScoringService.normalize_weights`: divide each weight by the sum of all
weights; an all-zero result is returned when the sum is 0. -/
def normalize_weights (weights : List (String × ℤ)) : List (String × ℚ) :=
  let total : ℤ := (weights.map (fun p => p.2)).sum
  if total = 0 then weights.map (fun p => (p.1, (0 : ℚ)))
  else weights.map (fun p => (p.1, (p.2 : ℚ) / (total : ℚ)))

/-- Model of `ScoringService.price_to_score`: price-to-score conversion against the
expected per-category slice of the budget (`share` is the `category_ratio`
argument, default 0.25 at the call sites). -/
def price_to_score (price budget share : ℚ) : ℚ :=
  let expected_price := budget * share
  if price ≤ 0 then 50
  else if price ≤ expected_price * 0.5 then 100
  else if price ≤ expected_price then 100 - price / expected_price * 30
  else if price ≤ expected_price * 1.5 then
    70 - (price - expected_price) / expected_price * 40
  else max 0 (30 - (price - expected_price * 1.5) / expected_price * 30)

end ScoringService

/-- The first maximal run of digits in a string, as a number (the model of
`re.search(r'(\d+)', duration)` followed by `int(...)`), or `none` when the
string has no digit. -/
def first_digit_run : List Char → Option (List Char)
  | [] => none
  | c :: cs => if c.isDigit then some (c :: cs.takeWhile Char.isDigit) else first_digit_run cs

def digits_to_nat (ds : List Char) : ℕ :=
  ds.foldl (fun n c => 10 * n + (c.toNat - '0'.toNat)) 0

def first_int (s : String) : Option ℕ := (first_digit_run s.data).map digits_to_nat

namespace CartAgent

/-- Tax rate fixed in `CartAgent.__init__`. -/
def tax_rate : ℚ := 0.0875

/-- Service-fee rate fixed in `CartAgent.__init__`. -/
def service_fee_rate : ℚ := 0.025

/-- Number of stay-days: the first integer found in the free-text duration
string, with 2 as the fallback when the regex does not match. -/
def num_days_of (duration : String) : ℕ := (first_int duration).getD 2

/-- Model of `CartAgent._calculate_quantity` (its unused `item` argument is dropped). -/
def calculate_quantity (category : String) (req : Requirements) : ℕ :=
  let attendees := req.attendees.getD 50
  let num_days := num_days_of (req.duration.getD "2 days")
  if category = "flights" then attendees
  else if category = "hotels" then (attendees / 2 + attendees % 2) * num_days
  else if category = "meeting_rooms" then num_days
  else if category = "catering" then attendees * num_days
  else 1

end CartAgent

/-- A scored package, as assembled by `RankingAgent._score_package`.  The
`package_id` (a fresh uuid) and the `explanation` block are display-only and
not modelled.  `rank` is 0 until `RankingAgent.rank` assigns 1-based
positions after sorting. -/
structure ScoredPackage where
  final_score : ℚ
  category_scores : List (String × ℚ)
  items : List (String × Item)
  total_cost : ℚ
  rank : ℕ
deriving DecidableEq, Repr

namespace RankingAgent

/-- Custom weights: a dict mapping a category name (or the key
`"category_importance"`) to a dict of numeric overrides. -/
abbrev CustomWeights := List (String × List (String × ℚ))

def default_category_weights : List (String × List (String × ℚ)) :=
  [("flights", [("price_weight", 50), ("timing_weight", 25),
                ("trust_weight", 15), ("comfort_weight", 10)]),
   ("hotels", [("price_weight", 20), ("trust_weight", 40),
               ("location_weight", 25), ("amenities_weight", 15)]),
   ("meeting_rooms", [("price_weight", 25), ("capacity_weight", 35),
                      ("equipment_weight", 25), ("trust_weight", 15)]),
   ("catering", [("price_weight", 30), ("trust_weight", 30),
                 ("dietary_weight", 25), ("service_weight", 15)])]

def default_category_importance : List (String × ℚ) :=
  [("flights", 30), ("hotels", 40), ("meeting_rooms", 15), ("catering", 15)]

/-- Observable value of `weights.get(key, fb)` in `_score_item`, where
`weights` is a copy of `default_category_weights[category]` updated with
`custom_weights[category]` when the latter is present and non-empty
(updating with an empty dict is the same as not updating). -/
def weight_get (cw : Option CustomWeights) (category key : String) (fb : ℚ) : ℚ :=
  match (cw.bind (fun w => w.lookup category)).bind (fun u => u.lookup key) with
  | some v => v
  | none => (((default_category_weights.lookup category).getD []).lookup key).getD fb

/-- Observable value of `importance.get(cat, fb)` in `_score_package`, where
`importance` is a copy of `default_category_importance` updated with
`custom_weights["category_importance"]` when present and non-empty. -/
def importance_get (cw : Option CustomWeights) (cat : String) (fb : ℚ) : ℚ :=
  match (cw.bind (fun w => w.lookup "category_importance")).bind (fun u => u.lookup cat) with
  | some v => v
  | none => (default_category_importance.lookup cat).getD fb

/-- Model of `RankingAgent._calculate_price_score` (`price_part` is the source's
price-to-budget quotient variable). -/
def calculate_price_score (price budget : ℚ) : ℚ :=
  if budget ≤ 0 then 50
  else
    let price_part := price / budget
    if 0.5 < price_part then max 0 (100 - price_part * 150)
    else if 0.3 < price_part then 100 - price_part * 100
    else 100 - price_part * 50

/-- The trust component of `_score_item`: `rating * 20` when a rating is
present, a default of 60 for every other shape of `trust_score` (missing
key, dict without a `rating` entry, non-dict value all yield 60 in the
source, since the missing-rating fallback is 3 and `3 * 20 = 60`). -/
def trust_score_of (item : Item) : ℚ :=
  match item.trust_score with
  | some rating => rating * 20
  | none => 60

/-- Model of `RankingAgent._score_item`, returning the rounded final score (the
per-component breakdown it also returns only feeds the display-only
explanation and is not modelled). -/
def score_item (item : Item) (category : String) (req : Requirements)
    (cw : Option CustomWeights) : ℚ :=
  let price_score := calculate_price_score item.price (req.budget.getD 100000)
  let trust_score := trust_score_of item
  let components : List (ℚ × ℚ) :=
    if category = "flights" then
      [(price_score, weight_get cw category "price_weight" 50),
       (75, weight_get cw category "timing_weight" 25),
       (trust_score, weight_get cw category "trust_weight" 15),
       (70, weight_get cw category "comfort_weight" 10)]
    else if category = "hotels" then
      [(price_score, weight_get cw category "price_weight" 20),
       (trust_score, weight_get cw category "trust_weight" 40),
       (85, weight_get cw category "location_weight" 25),
       (min 100 ((item.amenities.length : ℚ) * 12), weight_get cw category "amenities_weight" 15)]
    else if category = "meeting_rooms" then
      let capacity := item.capacity.getD 50
      let required_capacity := ((req.attendees.getD 50 : ℕ) : ℚ)
      let capacity_score :=
        if required_capacity ≤ capacity then (100 : ℚ)
        else capacity / required_capacity * 100
      [(price_score, weight_get cw category "price_weight" 25),
       (capacity_score, weight_get cw category "capacity_weight" 35),
       (min 100 ((item.equipment.length : ℚ) * 25), weight_get cw category "equipment_weight" 25),
       (trust_score, weight_get cw category "trust_weight" 15)]
    else if category = "catering" then
      [(price_score, weight_get cw category "price_weight" 30),
       (trust_score, weight_get cw category "trust_weight" 30),
       (min 100 ((item.dietary_options.length : ℚ) * 20), weight_get cw category "dietary_weight" 25),
       (80, weight_get cw category "service_weight" 15)]
    else [(price_score, 50), (trust_score, 50)]
  let final := (components.map (fun c => c.1 * c.2)).sum
  let total_weight := (components.map (fun c => c.2)).sum
  round2 (if 0 < total_weight then final / total_weight else final)

/-- Model of `RankingAgent._score_package`. -/
def score_package (package : List (String × Item)) (req : Requirements)
    (cw : Option CustomWeights) : ScoredPackage :=
  let category_scores := package.map (fun p => (p.1, score_item p.2 p.1 req cw))
  let total_importance := (category_scores.map (fun p => importance_get cw p.1 0)).sum
  let ti := if total_importance = 0 then (100 : ℚ) else total_importance
  let final_score := (category_scores.map (fun p => p.2 * (importance_get cw p.1 25 / ti))).sum
  let total_cost := (package.map (fun p => p.2.price)).sum
  { final_score := round2 final_score
    category_scores := category_scores.map (fun p => (p.1, round2 p.2))
    items := package
    total_cost := round2 total_cost
    rank := 0 }

/-- Model of `RankingAgent._create_placeholder_item` (the `requirements` argument is
unused in the source as well). -/
def create_placeholder_item (category : String) (_req : Requirements) : Item :=
  { item_id := category ++ "_placeholder"
    category := category
    vendor := "To Be Determined"
    price := 0
    availability := false
    amenities := []
    equipment := []
    dietary_options := []
    capacity := none
    trust_score := some 0 }

def canonical : List String := ["flights", "hotels", "meeting_rooms", "catering"]

/-- The per-category view of `_group_by_category`'s dict (grouping preserves
the input order of the items inside each category). -/
def group_by_category (items : List Item) (category : String) : List Item :=
  items.filter (fun i => i.category == category)

/-- The groups after the placeholder-fill loop in `rank`: any canonical
category with no discovered items is given exactly one placeholder item. -/
def filled_group (items : List Item) (req : Requirements) (category : String) : List Item :=
  let g := group_by_category items category
  if g.isEmpty then [create_placeholder_item category req] else g

/-- Model of `itertools.product`: all combinations, rightmost list advancing
fastest. -/
def prodLists {α : Type} : List (List α) → List (List α)
  | [] => [[]]
  | l :: ls => l.flatMap (fun x => (prodLists ls).map (fun combo => x :: combo))

/-- Model of `RankingAgent._generate_packages`: drop empty canonical categories, take
the cross product over the remaining ones (one item per category per
package), cap at the first 50 combinations. -/
def generate_packages (grouped : String → List Item) : List (List (String × Item)) :=
  let valid := canonical.filter (fun c => !(grouped c).isEmpty)
  ((prodLists (valid.map grouped)).map (fun combo => valid.zip combo)).take 50

/-- The descending-final-score order used by
`scored_packages.sort(key=lambda x: x["final_score"], reverse=True)`. -/
def scoreGe (a b : ScoredPackage) : Prop := b.final_score ≤ a.final_score

instance : DecidableRel scoreGe :=
  fun a b => inferInstanceAs (Decidable (b.final_score ≤ a.final_score))

instance : IsTotal ScoredPackage scoreGe := ⟨fun a b => le_total b.final_score a.final_score⟩

instance : IsTrans ScoredPackage scoreGe := ⟨fun _ _ _ h1 h2 => le_trans h2 h1⟩

def setRank (p : ScoredPackage) (n : ℕ) : ScoredPackage := { p with rank := n }

/-- The `for rank, pkg in enumerate(scored_packages, 1)` loop. -/
def assignRanks : ℕ → List ScoredPackage → List ScoredPackage
  | _, [] => []
  | n, p :: ps => setRank p n :: assignRanks (n + 1) ps

/-- The list of scored packages built inside `RankingAgent.rank` before the
sort. -/
def scored_list (items : List Item) (req : Requirements)
    (cw : Option CustomWeights) : List ScoredPackage :=
  (generate_packages (filled_group items req)).map (fun p => score_package p req cw)

/-- Model of `RankingAgent.rank`: group, fill placeholders, generate, score, sort by
final score descending (Python's sort is stable, modelled by insertion
sort), assign 1-based ranks. -/
def rank (items : List Item) (req : Requirements)
    (cw : Option CustomWeights) : List ScoredPackage :=
  assignRanks 1 (List.insertionSort scoreGe (scored_list items req cw))

end RankingAgent

/-- One cart line (`cart["items"][category]` in the source). -/
structure CartLine where
  item : Item
  quantity : ℕ
  unit_price : ℚ
  subtotal : ℚ
deriving DecidableEq, Repr

/-- A cart.  `requirements_summary` (a display-only copy of the
requirements) is not modelled.  `modified_at` is `none` until the first
recalculation stamps it. -/
structure Cart where
  cart_id : String
  items : List (String × CartLine)
  subtotal : ℚ
  taxes : ℚ
  fees : ℚ
  total : ℚ
  savings : Option ℚ
  created_at : String
  modified_at : Option String
  optimization_applied : Option String
  optimization_note : Option String
deriving DecidableEq, Repr

/-- The nondeterministic inputs the cart code consults: the uuid suffix for
`cart_id`, the wall clock, and the `random.uniform(0.10, 0.15)` draw used by
`_calculate_savings`. -/
structure Env where
  cart_uuid : String
  now : String
  savings_pct : ℚ
deriving DecidableEq, Repr

/-- A cart-modification request dict. -/
structure Modification where
  action : String
  item_id : Option String := none
  new_item : Option Item := none
  weights : Option RankingAgent.CustomWeights := none
  optimization_goal : Option String := none
deriving DecidableEq, Repr

namespace CartAgent

/-- Model of `CartAgent._calculate_savings`: a randomized estimate (the draw comes in
through `env`), `none` when the package's `total_cost` is not positive. -/
def calculate_savings (env : Env) (package : ScoredPackage) : Option ℚ :=
  if 0 < package.total_cost then some (round2 (package.total_cost * env.savings_pct))
  else none

/-- Model of `CartAgent.build_cart`.  Each line stores the rounded product
`price * quantity`; the cart-level subtotal accumulates the *unrounded*
products and is rounded once at the end, exactly as the loop in the source
does. -/
def build_cart (env : Env) (package : ScoredPackage) (req : Requirements) : Cart :=
  let line := fun (p : String × Item) =>
    (p.1, CartLine.mk p.2 (calculate_quantity p.1 req) p.2.price
      (round2 (p.2.price * (calculate_quantity p.1 req : ℚ))))
  let cart_items := package.items.map line
  let subtotal := (package.items.map (fun p => p.2.price * (calculate_quantity p.1 req : ℚ))).sum
  let taxes := subtotal * tax_rate
  let fees := subtotal * service_fee_rate
  let total := subtotal + taxes + fees
  { cart_id := env.cart_uuid
    items := cart_items
    subtotal := round2 subtotal
    taxes := round2 taxes
    fees := round2 fees
    total := round2 total
    savings := calculate_savings env package
    created_at := env.now
    modified_at := none
    optimization_applied := none
    optimization_note := none }

/-- Model of `CartAgent._recalculate_totals`: the subtotal is the sum of the stored
(already rounded) line subtotals. -/
def recalculate_totals (cart : Cart) (now : String) : Cart :=
  let subtotal := (cart.items.map (fun p => p.2.subtotal)).sum
  { cart with
    subtotal := round2 subtotal
    taxes := round2 (subtotal * tax_rate)
    fees := round2 (subtotal * service_fee_rate)
    total := round2 (subtotal + subtotal * tax_rate + subtotal * service_fee_rate)
    modified_at := some now }

/-- The loop of `_swap_item`: replace the first line whose item carries
`item_id`, keeping the quantity and recomputing that line's subtotal;
`none` when no line matches. -/
def swap_lines (item_id : String) (new_item : Item) :
    List (String × CartLine) → Option (List (String × CartLine))
  | [] => none
  | (cat, line) :: rest =>
    if line.item.item_id = item_id then
      some ((cat, CartLine.mk new_item line.quantity new_item.price
        (round2 (new_item.price * (line.quantity : ℚ)))) :: rest)
    else (swap_lines item_id new_item rest).map (fun ls => (cat, line) :: ls)

/-- Model of `CartAgent._swap_item`.  A missing or empty (falsy) `item_id` or a
missing `new_item` returns the cart unchanged, as does an unmatched id. -/
def swap_item (cart : Cart) (m : Modification) (now : String) : Cart :=
  match m.item_id, m.new_item with
  | some item_id, some new_item =>
    if item_id = "" then cart
    else
      match swap_lines item_id new_item cart.items with
      | some items2 => recalculate_totals { cart with items := items2 } now
      | none => cart
  | _, _ => cart

/-- The loop of `_remove_item`: delete the first line whose item carries
`item_id`; `none` when no line matches. -/
def remove_lines (item_id : String) :
    List (String × CartLine) → Option (List (String × CartLine))
  | [] => none
  | (cat, line) :: rest =>
    if line.item.item_id = item_id then some rest
    else (remove_lines item_id rest).map (fun ls => (cat, line) :: ls)

/-- Model of `CartAgent._remove_item`. -/
def remove_item (cart : Cart) (m : Modification) (now : String) : Cart :=
  match m.item_id with
  | some item_id =>
    if item_id = "" then cart
    else
      match remove_lines item_id cart.items with
      | some items2 => recalculate_totals { cart with items := items2 } now
      | none => cart
  | none => cart

/-- Model of `CartAgent._optimize_cart`: annotates the cart only, totals untouched. -/
def optimize_cart (cart : Cart) (m : Modification) : Cart :=
  let goal := m.optimization_goal.getD "balanced"
  { cart with
    optimization_applied := some goal
    optimization_note := some ("Cart optimized for " ++ goal) }

/-- Model of `CartAgent.modify`: dispatch on the action string; unknown actions
return the cart unchanged. -/
def modify (cart : Cart) (m : Modification) (now : String) : Cart :=
  if m.action = "swap" then swap_item cart m now
  else if m.action = "remove" then remove_item cart m now
  else if m.action = "optimize" then optimize_cart cart m
  else cart

end CartAgent

/-- The per-session workflow state held by `RetreatPlannerCrew`. -/
structure CrewState where
  requirements : Requirements
  discovered_items : List Item
  ranked_packages : List ScoredPackage
  cart : Cart
deriving DecidableEq, Repr

namespace RetreatPlannerCrew

/-- Model of `RetreatPlannerCrew.modify_cart`: `adjust_weights` re-runs the ranker on
the session's original discovered-items list with the new weights and, when
the ranked list is non-empty (it always is), rebuilds the cart from the new
top package; every other action is delegated to `CartAgent.modify`. -/
def modify_cart (st : CrewState) (m : Modification) (env : Env) : CrewState :=
  if m.action = "adjust_weights" then
    match RankingAgent.rank st.discovered_items st.requirements m.weights with
    | [] => { st with ranked_packages := [] }
    | top :: rest =>
      { st with ranked_packages := top :: rest
                cart := CartAgent.build_cart env top st.requirements }
  else { st with cart := CartAgent.modify st.cart m env.now }

end RetreatPlannerCrew

/-! ### Derived predicates and concrete sample inputs used by the theorems -/

/-- The total invariant P1, with the tolerance the rounding in the code
actually guarantees (see `c1_total_invariant`): the bound is
`1/200 + 1.1125/200 = 0.0105625`, so `0.011` holds while `0.01` does not. -/
def cartInv (c : Cart) : Prop :=
  |c.total - c.subtotal * (1 + 0.0875 + 0.025)| < 0.011

/-- The piecewise curve `price_to_score` follows on positive prices, as a
function of the price-to-reference quotient. -/
def price_curve (t : ℚ) : ℚ :=
  if t ≤ 0.5 then 100
  else if t ≤ 1 then 100 - t * 30
  else if t ≤ 1.5 then 70 - (t - 1) * 40
  else max 0 (30 - (t - 1.5) * 30)

def env0 : Env := { cart_uuid := "u1", now := "t1", savings_pct := 0.125 }

def cart0 : Cart :=
  { cart_id := "c0", items := [], subtotal := 0, taxes := 0, fees := 0, total := 0,
    savings := none, created_at := "t0", modified_at := none,
    optimization_applied := none, optimization_note := none }

def mod_rm : Modification := { action := "remove", item_id := some "x" }

def item_c1 : Item :=
  { item_id := "f1", category := "flights", vendor := "v", price := 0.44495,
    availability := true, amenities := [], equipment := [], dietary_options := [],
    capacity := none, trust_score := some 4 }

def pkg_c1 : ScoredPackage :=
  { final_score := 0, category_scores := [], items := [("flights", item_c1)],
    total_cost := 0, rank := 0 }

def req_c1 : Requirements :=
  { attendees := some 1, budget := none, duration := none, location := none, origin := none }

def item_c6a : Item :=
  { item_id := "a", category := "flights", vendor := "v", price := 0.004,
    availability := true, amenities := [], equipment := [], dietary_options := [],
    capacity := none, trust_score := none }

def item_c6b : Item :=
  { item_id := "b", category := "hotels", vendor := "v", price := 0.004,
    availability := true, amenities := [], equipment := [], dietary_options := [],
    capacity := none, trust_score := none }

def pkg_c6 : ScoredPackage :=
  { final_score := 0, category_scores := [],
    items := [("flights", item_c6a), ("hotels", item_c6b)], total_cost := 0, rank := 0 }

def req_c6 : Requirements :=
  { attendees := some 1, budget := none, duration := some "1 day", location := none,
    origin := none }

def item_c7old : Item :=
  { item_id := "", category := "flights", vendor := "v", price := 7,
    availability := true, amenities := [], equipment := [], dietary_options := [],
    capacity := none, trust_score := none }

def item_c7new : Item :=
  { item_id := "n1", category := "flights", vendor := "w", price := 5,
    availability := true, amenities := [], equipment := [], dietary_options := [],
    capacity := none, trust_score := none }

def cart_c7 : Cart :=
  { cart_id := "c7", items := [("flights", CartLine.mk item_c7old 2 7 14)],
    subtotal := 14, taxes := 1.23, fees := 0.35, total := 15.58, savings := none,
    created_at := "t", modified_at := none, optimization_applied := none,
    optimization_note := none }

def mod_c7 : Modification :=
  { action := "swap", item_id := some "", new_item := some item_c7new }

/-- The Scenario C weight override: all category importance on flights. -/
def cw100 : RankingAgent.CustomWeights :=
  [("category_importance",
    [("flights", 100), ("hotels", 0), ("meeting_rooms", 0), ("catering", 0)])]

/-- The flights entry of a scored package's `category_scores`. -/
def flights_cat_score (p : ScoredPackage) : ℚ :=
  (p.category_scores.lookup "flights").getD 0

def mod_aw : Modification := { action := "adjust_weights", weights := some cw100 }

/-- The single cart line `build_cart` produces from `pkg_c1` and `req_c1`. -/
def line_c1w : String × CartLine :=
  ("flights", CartLine.mk item_c1 (CartAgent.calculate_quantity "flights" req_c1) item_c1.price
    (round2 (item_c1.price * (CartAgent.calculate_quantity "flights" req_c1 : ℚ))))

def st0 : CrewState :=
  { requirements := req_c1, discovered_items := [], ranked_packages := [], cart := cart0 }

/-! ### Shared helper lemmas -/

theorem sum_map_div (l : List ℚ) (t : ℚ) :
    (l.map (fun x => x / t)).sum = l.sum / t := by
  induction l with
  | nil => simp
  | cons x xs ih => simp [ih, add_div]

theorem sum_map_intCast (w : List (String × ℤ)) :
    (w.map (fun p => ((p.2 : ℚ)))).sum = (((w.map (fun p => p.2)).sum : ℤ) : ℚ) := by
  induction w with
  | nil => simp
  | cons x xs ih =>
    simp only [List.map_cons, List.sum_cons, ih]
    push_cast
    ring

theorem norm_sum_eval (w : List (String × ℤ)) (t : ℚ) :
    ((w.map (fun p => (p.1, (p.2 : ℚ) / t))).map (fun p => p.2)).sum
      = (w.map (fun p => ((p.2 : ℚ)))).sum / t := by
  induction w with
  | nil => simp
  | cons x xs ih => simp only [List.map_cons, List.sum_cons, ih, add_div]

theorem ceil_half_nat (a : ℕ) : Int.toNat ⌈(a : ℚ) / 2⌉ = a / 2 + a % 2 := by
  rcases Nat.even_or_odd a with ⟨k, hk⟩ | ⟨k, hk⟩
  · subst hk
    have h : ((k + k : ℕ) : ℚ) / 2 = ((k : ℕ) : ℚ) := by push_cast; ring
    rw [h, Int.ceil_natCast]
    omega
  · subst hk
    have h : ((2 * k + 1 : ℕ) : ℚ) / 2 = (1 : ℚ) / 2 + ((k : ℕ) : ℚ) := by push_cast; ring
    have h2 : ⌈(1 : ℚ) / 2 + ((k : ℕ) : ℚ)⌉ = ⌈(1 : ℚ) / 2⌉ + (k : ℤ) := Int.ceil_add_nat _ k
    have h3 : ⌈(1 : ℚ) / 2⌉ = 1 := by
      rw [Int.ceil_eq_iff]
      norm_num
    rw [h, h2, h3]
    omega

/-! ### C8: weight normalization -/

/-- C8: `normalize_weights` divides each weight by the total; when the total
is positive the returned values sum to exactly 1 (hence within 1e-9), and a
zero total yields the all-zero map instead of a division-by-zero error. -/
theorem c8_normalize_weights (weights : List (String × ℤ)) :
    (0 < (weights.map (fun p => p.2)).sum →
      ((ScoringService.normalize_weights weights).map (fun p => p.2)).sum = 1) ∧
    ((weights.map (fun p => p.2)).sum = 0 →
      ScoringService.normalize_weights weights = weights.map (fun p => (p.1, (0 : ℚ)))) ∧
    ((weights.map (fun p => p.2)).sum ≠ 0 →
      ScoringService.normalize_weights weights =
        weights.map (fun p => (p.1, (p.2 : ℚ) / (((weights.map (fun q => q.2)).sum : ℤ) : ℚ)))) := by
  refine ⟨fun hpos => ?_, fun hzero => ?_, fun hne => ?_⟩
  · have hne : (weights.map (fun p => p.2)).sum ≠ 0 := ne_of_gt hpos
    have hq : (((weights.map (fun p => p.2)).sum : ℤ) : ℚ) ≠ 0 := by exact_mod_cast hne
    simp only [ScoringService.normalize_weights, if_neg hne]
    rw [norm_sum_eval, sum_map_intCast, div_self hq]
  · simp only [ScoringService.normalize_weights, if_pos hzero]
  · simp only [ScoringService.normalize_weights, if_neg hne]

/-- Witness for C8 at a concrete weight map. -/
theorem c8_normalize_weights_witness :
    ((ScoringService.normalize_weights [("price", 3), ("trust", 1)]).map (fun p => p.2)).sum = 1 :=
  (c8_normalize_weights [("price", 3), ("trust", 1)]).1 (by decide)

/-! ### C9: cart quantities -/

/-- C9: `_calculate_quantity` computes flights = attendees, hotels =
`ceil(attendees/2)` rooms times the stay-days, meeting_rooms = stay-days,
catering = attendees times stay-days, where stay-days is the first integer
found in the duration string, defaulting to 2 when none is present. -/
theorem c9_quantities (req : Requirements) (a : ℕ) (d : String)
    (ha : req.attendees = some a) (hd : req.duration = some d) :
    CartAgent.calculate_quantity "flights" req = a ∧
    CartAgent.calculate_quantity "hotels" req = Int.toNat ⌈(a : ℚ) / 2⌉ * CartAgent.num_days_of d ∧
    CartAgent.calculate_quantity "meeting_rooms" req = CartAgent.num_days_of d ∧
    CartAgent.calculate_quantity "catering" req = a * CartAgent.num_days_of d ∧
    (first_int d = none → CartAgent.num_days_of d = 2) ∧
    (∀ n, first_int d = some n → CartAgent.num_days_of d = n) := by
  refine ⟨?_, ?_, ?_, ?_, fun h => ?_, fun n h => ?_⟩
  · simp +decide [CartAgent.calculate_quantity, ha, hd]
  · rw [ceil_half_nat]
    simp +decide [CartAgent.calculate_quantity, ha, hd]
  · simp +decide [CartAgent.calculate_quantity, ha, hd]
  · simp +decide [CartAgent.calculate_quantity, ha, hd]
  · simp [CartAgent.num_days_of, h]
  · simp [CartAgent.num_days_of, h]

/-- Witness for C9 at a concrete requirements record. -/
theorem c9_quantities_witness :
    CartAgent.calculate_quantity "hotels" ⟨some 5, none, some "3 days", none, none⟩ =
      Int.toNat ⌈((5 : ℕ) : ℚ) / 2⌉ * CartAgent.num_days_of "3 days" :=
  (c9_quantities ⟨some 5, none, some "3 days", none, none⟩ 5 "3 days" rfl rfl).2.1

/-! ### C10: determinism of the persisted monetary totals -/

/-- C10: the subtotal, taxes, fees and total stored by `build_cart` are the
same across any two runs on identical package and requirements inputs: no
uuid, wall-clock or random draw (the `Env` inputs) reaches them. -/
theorem c10_deterministic_totals (e1 e2 : Env) (pkg : ScoredPackage) (req : Requirements) :
    (CartAgent.build_cart e1 pkg req).subtotal = (CartAgent.build_cart e2 pkg req).subtotal ∧
    (CartAgent.build_cart e1 pkg req).taxes = (CartAgent.build_cart e2 pkg req).taxes ∧
    (CartAgent.build_cart e1 pkg req).fees = (CartAgent.build_cart e2 pkg req).fees ∧
    (CartAgent.build_cart e1 pkg req).total = (CartAgent.build_cart e2 pkg req).total :=
  ⟨rfl, rfl, rfl, rfl⟩

/-! ### C1: the total invariant -/

theorem round_total_close (S : ℚ) :
    |round2 (S + S * CartAgent.tax_rate + S * CartAgent.service_fee_rate)
      - round2 S * (1 + 0.0875 + 0.025)| < 0.011 := by
  have h1 := round2_err (S + S * CartAgent.tax_rate + S * CartAgent.service_fee_rate)
  have h2 := round2_err S
  rw [abs_le] at h1 h2
  rw [abs_lt]
  unfold CartAgent.tax_rate CartAgent.service_fee_rate at h1 ⊢
  constructor <;> linarith [h1.1, h1.2, h2.1, h2.2]

theorem cartInv_build (env : Env) (pkg : ScoredPackage) (req : Requirements) :
    cartInv (CartAgent.build_cart env pkg req) :=
  round_total_close _

theorem cartInv_recalc (c : Cart) (now : String) :
    cartInv (CartAgent.recalculate_totals c now) :=
  round_total_close _

theorem cartInv_swap (c : Cart) (m : Modification) (now : String) (h : cartInv c) :
    cartInv (CartAgent.swap_item c m now) := by
  unfold CartAgent.swap_item
  cases hmi : m.item_id with
  | none => exact h
  | some id =>
    cases hni : m.new_item with
    | none => exact h
    | some nit =>
      by_cases hid : id = ""
      · simp only [if_pos hid]; exact h
      · simp only [if_neg hid]
        cases hsl : CartAgent.swap_lines id nit c.items with
        | none => exact h
        | some items2 => exact cartInv_recalc _ _

theorem cartInv_remove (c : Cart) (m : Modification) (now : String) (h : cartInv c) :
    cartInv (CartAgent.remove_item c m now) := by
  unfold CartAgent.remove_item
  cases hmi : m.item_id with
  | none => exact h
  | some id =>
    by_cases hid : id = ""
    · simp only [if_pos hid]; exact h
    · simp only [if_neg hid]
      cases hsl : CartAgent.remove_lines id c.items with
      | none => exact h
      | some items2 => exact cartInv_recalc _ _

theorem cartInv_optimize (c : Cart) (m : Modification) (h : cartInv c) :
    cartInv (CartAgent.optimize_cart c m) := by
  unfold cartInv at h ⊢
  unfold CartAgent.optimize_cart
  simpa using h

theorem cartInv_modify (c : Cart) (m : Modification) (now : String) (h : cartInv c) :
    cartInv (CartAgent.modify c m now) := by
  unfold CartAgent.modify
  split_ifs with h1 h2 h3
  · exact cartInv_swap c m now h
  · exact cartInv_remove c m now h
  · exact cartInv_optimize c m h
  · exact h

/-- C1 (amended): for every cart built by `build_cart`, and for every swap,
remove or optimize modification applied to a cart already satisfying the
bound, `abs(total - subtotal*(1+0.0875+0.025)) < 0.011` holds for the stored
fields.  The original bound 0.01 fails (see `c1_total_invariant_cex`):
`build_cart` rounds a subtotal it accumulated unrounded, so the two stored
fields can disagree by up to `0.005 + 1.1125 * 0.005 = 0.0105625`. -/
theorem c1_total_invariant :
    (∀ (env : Env) (pkg : ScoredPackage) (req : Requirements),
        cartInv (CartAgent.build_cart env pkg req)) ∧
    (∀ (c : Cart) (m : Modification) (now : String),
        cartInv c → cartInv (CartAgent.modify c m now)) :=
  ⟨cartInv_build, cartInv_modify⟩

/-- Witness for C1: the bound holds on a concrete build and a concrete
modification. -/
theorem c1_total_invariant_witness :
    cartInv (CartAgent.build_cart env0 pkg_c1 req_c1) ∧
    cartInv (CartAgent.modify cart0 mod_rm "t2") :=
  ⟨c1_total_invariant.1 env0 pkg_c1 req_c1,
   c1_total_invariant.2 cart0 mod_rm "t2" (by norm_num [cartInv, cart0])⟩

/-- Counterexample for C1 as stated: a single flights line priced 0.44495
with one attendee gives a stored subtotal of 0.44 and a stored total of
0.50, and `|0.50 - 0.44 * 1.1125| = 0.0105 ≥ 0.01`. -/
theorem c1_total_invariant_cex :
    ¬ (|(CartAgent.build_cart env0 pkg_c1 req_c1).total -
        (CartAgent.build_cart env0 pkg_c1 req_c1).subtotal * (1 + 0.0875 + 0.025)| < 0.01) := by
  have hq : CartAgent.calculate_quantity "flights" req_c1 = 1 := by decide
  have hsub : (CartAgent.build_cart env0 pkg_c1 req_c1).subtotal = 0.44 := by
    simp only [CartAgent.build_cart, pkg_c1, item_c1, List.map_cons, List.map_nil,
      List.sum_cons, List.sum_nil, hq]
    norm_num [round2, round_eq]
  have htot : (CartAgent.build_cart env0 pkg_c1 req_c1).total = 0.5 := by
    simp only [CartAgent.build_cart, pkg_c1, item_c1, List.map_cons, List.map_nil,
      List.sum_cons, List.sum_nil, hq, CartAgent.tax_rate, CartAgent.service_fee_rate]
    norm_num [round2, round_eq]
  rw [hsub, htot]
  rw [abs_of_pos (by norm_num)]
  norm_num

/-! ### C6: where rounding happens in build_cart -/

/-- C6 (amended): each cart line's subtotal is the rounded product
`unit_price * quantity`, but the cart-level subtotal is the rounded value of
the *unrounded* accumulation of the line products — the values are not
summed after rounding (see `c6_rounding_cex`). -/
theorem c6_rounding (env : Env) (pkg : ScoredPackage) (req : Requirements) :
    (∀ p ∈ (CartAgent.build_cart env pkg req).items,
        p.2.subtotal = round2 (p.2.unit_price * (p.2.quantity : ℚ))) ∧
    (CartAgent.build_cart env pkg req).subtotal =
      round2 ((pkg.items.map
        (fun q => q.2.price * (CartAgent.calculate_quantity q.1 req : ℚ))).sum) := by
  constructor
  · intro p hp
    have hp' : p ∈ pkg.items.map (fun q =>
        (q.1, CartLine.mk q.2 (CartAgent.calculate_quantity q.1 req) q.2.price
          (round2 (q.2.price * (CartAgent.calculate_quantity q.1 req : ℚ))))) := hp
    rw [List.mem_map] at hp'
    obtain ⟨q, _, rfl⟩ := hp'
    rfl
  · rfl

/-- Witness for C6 at a concrete input: the single line of `pkg_c1`. -/
theorem c6_rounding_witness :
    line_c1w.2.subtotal = round2 (line_c1w.2.unit_price * (line_c1w.2.quantity : ℚ)) ∧
    (CartAgent.build_cart env0 pkg_c1 req_c1).subtotal =
      round2 ((pkg_c1.items.map
        (fun q => q.2.price * (CartAgent.calculate_quantity q.1 req_c1 : ℚ))).sum) :=
  ⟨(c6_rounding env0 pkg_c1 req_c1).1 line_c1w (List.mem_singleton.mpr rfl),
   (c6_rounding env0 pkg_c1 req_c1).2⟩

/-- Counterexample for C6 as stated: two lines priced 0.004 with quantity 1
each round to 0.00, so the sum of the rounded line subtotals is 0, yet the
stored cart subtotal is `round2(0.008) = 0.01`. -/
theorem c6_rounding_cex :
    (CartAgent.build_cart env0 pkg_c6 req_c6).subtotal = 0.01 ∧
    ((CartAgent.build_cart env0 pkg_c6 req_c6).items.map (fun p => p.2.subtotal)).sum = 0 ∧
    (0.01 : ℚ) ≠ 0 := by
  have hqf : CartAgent.calculate_quantity "flights" req_c6 = 1 := by decide
  have hqh : CartAgent.calculate_quantity "hotels" req_c6 = 1 := by decide
  refine ⟨?_, ?_, by norm_num⟩
  · simp only [CartAgent.build_cart, pkg_c6, item_c6a, item_c6b, List.map_cons, List.map_nil,
      List.sum_cons, List.sum_nil, hqf, hqh]
    norm_num [round2, round_eq]
  · simp only [CartAgent.build_cart, pkg_c6, item_c6a, item_c6b, List.map_cons, List.map_nil,
      List.sum_cons, List.sum_nil, hqf, hqh]
    norm_num [round2, round_eq]

/-! ### C7: swap and remove on a missing or matching item id -/

theorem swap_lines_not_found (id : String) (nit : Item) :
    ∀ ls : List (String × CartLine), (∀ p ∈ ls, p.2.item.item_id ≠ id) →
      CartAgent.swap_lines id nit ls = none := by
  intro ls
  induction ls with
  | nil => intro _; rfl
  | cons x xs ih =>
    intro h
    obtain ⟨cat, line⟩ := x
    simp only [CartAgent.swap_lines]
    rw [if_neg (h (cat, line) (by simp))]
    rw [ih (fun p hp => h p (by simp [hp]))]
    rfl

theorem remove_lines_not_found (id : String) :
    ∀ ls : List (String × CartLine), (∀ p ∈ ls, p.2.item.item_id ≠ id) →
      CartAgent.remove_lines id ls = none := by
  intro ls
  induction ls with
  | nil => intro _; rfl
  | cons x xs ih =>
    intro h
    obtain ⟨cat, line⟩ := x
    simp only [CartAgent.remove_lines]
    rw [if_neg (h (cat, line) (by simp))]
    rw [ih (fun p hp => h p (by simp [hp]))]
    rfl

theorem swap_lines_found (id : String) (nit : Item) (cat : String) (line : CartLine)
    (post : List (String × CartLine)) :
    ∀ pre, (∀ p ∈ pre, p.2.item.item_id ≠ id) → line.item.item_id = id →
      CartAgent.swap_lines id nit (pre ++ (cat, line) :: post) =
        some (pre ++ (cat, CartLine.mk nit line.quantity nit.price
          (round2 (nit.price * (line.quantity : ℚ)))) :: post) := by
  intro pre
  induction pre with
  | nil =>
    intro _ hmatch
    simp only [List.nil_append, CartAgent.swap_lines, if_pos hmatch]
  | cons x xs ih =>
    intro hpre hmatch
    obtain ⟨c1, l1⟩ := x
    simp only [List.cons_append, CartAgent.swap_lines, List.append_eq]
    rw [if_neg (hpre (c1, l1) (by simp))]
    rw [ih (fun p hp => hpre p (by simp [hp])) hmatch]
    rfl

/-- C7 (amended): a swap or remove whose `item_id` matches no cart line (or
is missing) returns the cart unchanged, with no error; a swap whose
*non-empty* `item_id` matches a line replaces that line's item keeping the
quantity, stores the new unit price, recomputes the line subtotal as
`new price * quantity`, and recomputes the totals.  The non-emptiness
condition is forced by the source's falsy check (see `c7_swap_noop_cex`). -/
theorem c7_swap_remove :
    (∀ (c : Cart) (m : Modification) (now : String),
      (m.action = "swap" ∨ m.action = "remove") →
      (∀ id, m.item_id = some id → ∀ p ∈ c.items, p.2.item.item_id ≠ id) →
      CartAgent.modify c m now = c) ∧
    (∀ (c : Cart) (now id : String) (nit : Item) (pre post : List (String × CartLine))
        (cat : String) (line : CartLine),
      id ≠ "" →
      c.items = pre ++ (cat, line) :: post →
      line.item.item_id = id →
      (∀ p ∈ pre, p.2.item.item_id ≠ id) →
      CartAgent.modify c { action := "swap", item_id := some id, new_item := some nit } now =
        CartAgent.recalculate_totals
          { c with items := pre ++ (cat, CartLine.mk nit line.quantity nit.price
              (round2 (nit.price * (line.quantity : ℚ)))) :: post } now) := by
  constructor
  · intro c m now hact hnof
    unfold CartAgent.modify
    rcases hact with h | h
    · rw [if_pos h]
      unfold CartAgent.swap_item
      cases hmi : m.item_id with
      | none => rfl
      | some id =>
        cases hni : m.new_item with
        | none => rfl
        | some nit =>
          by_cases hid : id = ""
          · simp only [if_pos hid]
          · simp only [if_neg hid, swap_lines_not_found id nit c.items (hnof id hmi)]
    · rw [if_neg (by rw [h]; decide), if_pos h]
      unfold CartAgent.remove_item
      cases hmi : m.item_id with
      | none => rfl
      | some id =>
        by_cases hid : id = ""
        · simp only [if_pos hid]
        · simp only [if_neg hid, remove_lines_not_found id c.items (hnof id hmi)]
  · intro c now id nit pre post cat line hid hitems hmatch hpre
    unfold CartAgent.modify CartAgent.swap_item
    dsimp only
    rw [if_pos (rfl : ("swap" : String) = "swap")]
    rw [if_neg hid, hitems, swap_lines_found id nit cat line post pre hpre hmatch]

/-- Witness for C7: removing a nonexistent id from the empty cart is a
no-op. -/
theorem c7_swap_remove_witness : CartAgent.modify cart0 mod_rm "t3" = cart0 :=
  c7_swap_remove.1 cart0 mod_rm "t3" (Or.inr rfl)
    (fun id _ p hp => by simp [cart0] at hp)

/-- Counterexample for C7 as stated: a swap whose `item_id` is the empty
string matches the (pathological) cart line whose item carries the empty
id, yet the source's falsy check makes it a no-op instead of replacing the
line, so the matched line still holds the old item. -/
theorem c7_swap_noop_cex :
    mod_c7.action = "swap" ∧
    mod_c7.item_id = some "" ∧
    cart_c7.items.map (fun p => p.2.item.item_id) = [""] ∧
    CartAgent.modify cart_c7 mod_c7 "t9" = cart_c7 ∧
    ((CartAgent.modify cart_c7 mod_c7 "t9").items.map (fun p => p.2.item.item_id))
      ≠ [item_c7new.item_id] := by
  refine ⟨rfl, rfl, rfl, rfl, ?_⟩
  intro h
  simp [CartAgent.modify, CartAgent.swap_item, mod_c7, cart_c7, item_c7old, item_c7new] at h

/-! ### C5: the price-to-score curve -/

theorem pts_nonpos (budget share price : ℚ) (h : price ≤ 0) :
    ScoringService.price_to_score price budget share = 50 := by
  simp only [ScoringService.price_to_score, if_pos h]

theorem f_eq_curve (budget share price : ℚ) (hb : 0 < budget) (hs : 0 < share)
    (hp : 0 < price) :
    ScoringService.price_to_score price budget share =
      price_curve (price / (budget * share)) := by
  have he : 0 < budget * share := mul_pos hb hs
  have he' : budget * share ≠ 0 := ne_of_gt he
  simp only [ScoringService.price_to_score, price_curve]
  rw [if_neg (not_le.mpr hp)]
  have h1 : (price ≤ budget * share * 0.5) = (price / (budget * share) ≤ 0.5) := by
    rw [eq_iff_iff, div_le_iff₀ he]
    constructor <;> intro h <;> linarith
  have h2 : (price ≤ budget * share) = (price / (budget * share) ≤ 1) := by
    rw [eq_iff_iff, div_le_iff₀ he]
    constructor <;> intro h <;> linarith
  have h3 : (price ≤ budget * share * 1.5) = (price / (budget * share) ≤ 1.5) := by
    rw [eq_iff_iff, div_le_iff₀ he]
    constructor <;> intro h <;> linarith
  have v3 : (price - budget * share) / (budget * share) = price / (budget * share) - 1 := by
    rw [sub_div, div_self he']
  have v4 : (price - budget * share * 1.5) / (budget * share) =
      price / (budget * share) - 1.5 := by
    rw [sub_div, mul_comm (budget * share) (1.5 : ℚ), mul_div_assoc, div_self he', mul_one]
  simp only [v3, v4, h1, h2, h3]

theorem price_curve_bounds (t : ℚ) : 0 ≤ price_curve t ∧ price_curve t ≤ 100 := by
  unfold price_curve
  split_ifs with h1 h2 h3
  · norm_num
  · constructor <;> linarith
  · constructor <;> linarith
  · constructor
    · exact le_max_left _ _
    · exact max_le (by norm_num) (by linarith)

theorem price_curve_mono {t1 t2 : ℚ} (h : t1 ≤ t2) : price_curve t2 ≤ price_curve t1 := by
  unfold price_curve
  split_ifs <;>
    first
      | linarith
      | (apply max_le <;> linarith)
      | (exact max_le (le_max_left _ _) (le_trans (by linarith) (le_max_right _ _)))

theorem price_curve_100 {t : ℚ} (h : t ≤ 0.5) : price_curve t = 100 := by
  unfold price_curve
  rw [if_pos h]

theorem price_curve_lt_30 {t : ℚ} (h : 1.5 < t) : price_curve t < 30 := by
  unfold price_curve
  rw [if_neg (by linarith), if_neg (by linarith), if_neg (by linarith)]
  have h0 : 0 < (t - 1.5) * 30 := mul_pos (by linarith) (by norm_num)
  exact max_lt (by norm_num) (by linarith)

/-- C5 (amended): for a fixed positive budget and category share the
price-to-score function stays in [0,100], is monotonically decreasing over
*positive* prices, returns the full score 100 for every positive price at or
below half the reference `budget * share`, returns the neutral score 50 for
every price that is zero or negative (so the stated monotonicity over all
prices ≥ 0 and the full score at price 0 both fail, see
`c5_price_to_score_cex`), and drops below 30 — while never going negative —
once the price passes 1.5 times the reference. -/
theorem c5_price_to_score (budget share : ℚ) (hb : 0 < budget) (hs : 0 < share) :
    (∀ price, 0 ≤ ScoringService.price_to_score price budget share ∧
        ScoringService.price_to_score price budget share ≤ 100) ∧
    (∀ p1 p2, 0 < p1 → p1 ≤ p2 →
        ScoringService.price_to_score p2 budget share ≤
          ScoringService.price_to_score p1 budget share) ∧
    (∀ price, 0 < price → price ≤ budget * share / 2 →
        ScoringService.price_to_score price budget share = 100) ∧
    (∀ price, price ≤ 0 → ScoringService.price_to_score price budget share = 50) ∧
    (∀ price, budget * share * 1.5 < price →
        ScoringService.price_to_score price budget share < 30) := by
  have he : 0 < budget * share := mul_pos hb hs
  refine ⟨fun price => ?_, fun p1 p2 h1 h12 => ?_, fun price hp h => ?_,
    fun price hp => pts_nonpos budget share price hp, fun price hp => ?_⟩
  · by_cases hp : 0 < price
    · rw [f_eq_curve budget share price hb hs hp]
      exact price_curve_bounds _
    · rw [pts_nonpos budget share price (not_lt.mp hp)]
      norm_num
  · have hp2 : 0 < p2 := lt_of_lt_of_le h1 h12
    rw [f_eq_curve budget share p1 hb hs h1, f_eq_curve budget share p2 hb hs hp2]
    exact price_curve_mono ((div_le_div_iff_of_pos_right he).mpr h12)
  · rw [f_eq_curve budget share price hb hs hp]
    apply price_curve_100
    rw [div_le_iff₀ he]
    linarith
  · have hp' : 0 < price := lt_trans (by positivity) hp
    rw [f_eq_curve budget share price hb hs hp']
    apply price_curve_lt_30
    rw [lt_div_iff₀ he]
    linarith

/-- Witness for C5 at the default reference (budget 100000, share 0.25). -/
theorem c5_price_to_score_witness :
    ScoringService.price_to_score 2000 100000 0.25 = 100 :=
  (c5_price_to_score 100000 0.25 (by norm_num) (by norm_num)).2.2.1 2000
    (by norm_num) (by norm_num)

/-- Counterexample for C5 as stated: at price 0 — which lies at or below
half of any positive reference — the function returns the neutral 50, not
100, and the pair of prices 0 ≤ 1 has the score *increasing* from 50 to
100, refuting monotone decrease over all prices ≥ 0. -/
theorem c5_price_to_score_cex :
    ScoringService.price_to_score 0 100000 0.25 = 50 ∧
    ScoringService.price_to_score 1 100000 0.25 = 100 ∧
    (0 : ℚ) ≤ 1 ∧ (0 : ℚ) ≤ 100000 * 0.25 * 0.5 ∧
    ¬ ScoringService.price_to_score 0 100000 0.25 = 100 ∧
    ¬ ScoringService.price_to_score 1 100000 0.25 ≤
        ScoringService.price_to_score 0 100000 0.25 := by
  have h0 : ScoringService.price_to_score 0 100000 0.25 = 50 := by
    norm_num [ScoringService.price_to_score]
  have h1 : ScoringService.price_to_score 1 100000 0.25 = 100 := by
    norm_num [ScoringService.price_to_score]
  exact ⟨h0, h1, by norm_num, by norm_num, by rw [h0]; norm_num, by rw [h0, h1]; norm_num⟩

/-! ### C2: descending order, 1-based ranks, stability -/

theorem mem_assignRanks {p : ScoredPackage} :
    ∀ {l : List ScoredPackage} {n : ℕ}, p ∈ RankingAgent.assignRanks n l →
      ∃ q ∈ l, ∃ k, p = RankingAgent.setRank q k := by
  intro l
  induction l with
  | nil => intro n h; simp [RankingAgent.assignRanks] at h
  | cons x xs ih =>
    intro n h
    simp only [RankingAgent.assignRanks, List.mem_cons] at h
    rcases h with h | h
    · exact ⟨x, by simp, n, h⟩
    · obtain ⟨q, hq, k, hk⟩ := ih h
      exact ⟨q, by simp [hq], k, hk⟩

theorem assignRanks_pairwise {l : List ScoredPackage} (n : ℕ)
    (h : List.Pairwise RankingAgent.scoreGe l) :
    List.Pairwise RankingAgent.scoreGe (RankingAgent.assignRanks n l) := by
  induction l generalizing n with
  | nil => simp [RankingAgent.assignRanks]
  | cons x xs ih =>
    rw [List.pairwise_cons] at h
    simp only [RankingAgent.assignRanks]
    rw [List.pairwise_cons]
    constructor
    · intro q hq
      obtain ⟨q', hq', k, rfl⟩ := mem_assignRanks hq
      exact h.1 q' hq'
    · exact ih (n + 1) h.2

theorem assignRanks_length : ∀ (l : List ScoredPackage) (n : ℕ),
    (RankingAgent.assignRanks n l).length = l.length := by
  intro l
  induction l with
  | nil => intro n; rfl
  | cons x xs ih => intro n; simp [RankingAgent.assignRanks, ih]

theorem assignRanks_pos (l : List ScoredPackage) :
    ∀ (n i : ℕ), i < l.length →
      ((RankingAgent.assignRanks n l)[i]?).map ScoredPackage.rank = some (n + i) := by
  induction l with
  | nil => intro n i h; simp at h
  | cons x xs ih =>
    intro n i h
    cases i with
    | zero => simp [RankingAgent.assignRanks, RankingAgent.setRank]
    | succ j =>
      have hj : j < xs.length := by simpa using h
      have hrec := ih (n + 1) j hj
      simp only [RankingAgent.assignRanks, List.getElem?_cons_succ]
      rw [hrec]
      congr 1
      omega

theorem filter_orderedInsert (s : ℚ) (x : ScoredPackage) :
    ∀ l : List ScoredPackage,
      (List.orderedInsert RankingAgent.scoreGe x l).filter
          (fun p => decide (p.final_score = s))
        = if x.final_score = s
          then x :: l.filter (fun p => decide (p.final_score = s))
          else l.filter (fun p => decide (p.final_score = s)) := by
  intro l
  induction l with
  | nil =>
    by_cases hx : x.final_score = s <;> simp [List.orderedInsert, List.filter, hx]
  | cons y ys ih =>
    by_cases hr : RankingAgent.scoreGe x y
    · simp only [List.orderedInsert, if_pos hr]
      by_cases hx : x.final_score = s <;> by_cases hy : y.final_score = s <;>
        simp [List.filter_cons, hx, hy]
    · simp only [List.orderedInsert, if_neg hr]
      by_cases hx : x.final_score = s
      · have hy : ¬(y.final_score = s) := fun he =>
          hr (le_of_eq (by rw [he, hx] : y.final_score = x.final_score))
        simp [List.filter_cons, hx, hy, ih]
      · by_cases hy : y.final_score = s <;> simp [List.filter_cons, hx, hy, ih]

theorem filter_insertionSort (s : ℚ) (l : List ScoredPackage) :
    (List.insertionSort RankingAgent.scoreGe l).filter
        (fun p => decide (p.final_score = s))
      = l.filter (fun p => decide (p.final_score = s)) := by
  induction l with
  | nil => rfl
  | cons x xs ih =>
    simp only [List.insertionSort]
    rw [filter_orderedInsert]
    by_cases hx : x.final_score = s <;> simp [List.filter_cons, hx, ih]

theorem filter_assignRanks (s : ℚ) :
    ∀ (l : List ScoredPackage) (n : ℕ),
      ((RankingAgent.assignRanks n l).filter (fun p => decide (p.final_score = s))).map
          (fun p => RankingAgent.setRank p 0)
        = (l.filter (fun p => decide (p.final_score = s))).map
            (fun p => RankingAgent.setRank p 0) := by
  intro l
  induction l with
  | nil => intro n; rfl
  | cons x xs ih =>
    intro n
    have hsc : (RankingAgent.setRank x n).final_score = x.final_score := rfl
    simp only [RankingAgent.assignRanks, List.filter_cons, hsc]
    by_cases hx : x.final_score = s
    · have hb : decide (x.final_score = s) = true := decide_eq_true hx
      simp only [hb, if_true, List.map_cons]
      rw [ih (n + 1)]
      rfl
    · have hb : decide (x.final_score = s) = false := decide_eq_false hx
      simp only [hb, Bool.false_eq_true, if_false]
      exact ih (n + 1)

theorem setRank_zero_self {x : ScoredPackage} (hx : x.rank = 0) :
    RankingAgent.setRank x 0 = x := by
  cases x
  simp only [RankingAgent.setRank]
  simp at hx
  rw [hx]

theorem map_setRank_zero (l : List ScoredPackage) (h : ∀ p ∈ l, p.rank = 0) :
    l.map (fun p => RankingAgent.setRank p 0) = l := by
  induction l with
  | nil => rfl
  | cons x xs ih =>
    rw [List.map_cons, setRank_zero_self (h x (by simp)), ih (fun p hp => h p (by simp [hp]))]

theorem scored_list_rank_zero (items : List Item) (req : Requirements)
    (cw : Option RankingAgent.CustomWeights) :
    ∀ p ∈ RankingAgent.scored_list items req cw, p.rank = 0 := by
  intro p hp
  simp only [RankingAgent.scored_list, List.mem_map] at hp
  obtain ⟨q, _, rfl⟩ := hp
  rfl

/-- C2: the list returned by `RankingAgent.rank` is sorted in descending
order of `final_score`, each element's `rank` field is its 1-based position,
and packages with equal `final_score` keep the relative order in which they
were generated and scored (`scored_list`): the sort is stable. -/
theorem c2_rank_sorted (items : List Item) (req : Requirements)
    (cw : Option RankingAgent.CustomWeights) :
    List.Pairwise (fun a b => b.final_score ≤ a.final_score)
      (RankingAgent.rank items req cw) ∧
    (∀ i, i < (RankingAgent.rank items req cw).length →
      ((RankingAgent.rank items req cw)[i]?).map ScoredPackage.rank = some (i + 1)) ∧
    (∀ s : ℚ,
      ((RankingAgent.rank items req cw).filter
          (fun p => decide (p.final_score = s))).map (fun p => RankingAgent.setRank p 0)
        = (RankingAgent.scored_list items req cw).filter
            (fun p => decide (p.final_score = s))) := by
  refine ⟨?_, ?_, ?_⟩
  · exact assignRanks_pairwise 1
      (List.sorted_insertionSort RankingAgent.scoreGe (RankingAgent.scored_list items req cw))
  · intro i hi
    have hlen : i < (List.insertionSort RankingAgent.scoreGe
        (RankingAgent.scored_list items req cw)).length := by
      rw [RankingAgent.rank, assignRanks_length] at hi
      exact hi
    have := assignRanks_pos _ 1 i hlen
    rw [RankingAgent.rank, this]
    congr 1
    omega
  · intro s
    rw [RankingAgent.rank, filter_assignRanks, map_setRank_zero, filter_insertionSort]
    intro p hp
    have hp' := List.mem_filter.mp hp
    have hmem : p ∈ RankingAgent.scored_list items req cw :=
      (List.mem_insertionSort RankingAgent.scoreGe).mp hp'.1
    exact scored_list_rank_zero items req cw p hmem

/-- Witness for C2: the head of a concrete ranked list carries rank 1. -/
theorem c2_rank_sorted_witness :
    ((RankingAgent.rank [] req_c1 none)[0]?).map ScoredPackage.rank = some (0 + 1) :=
  (c2_rank_sorted [] req_c1 none).2.1 0 (by decide)

/-! ### C4: placeholder completeness -/

theorem filled_group_ne_nil (items : List Item) (req : Requirements) (c : String) :
    RankingAgent.filled_group items req c ≠ [] := by
  simp only [RankingAgent.filled_group]
  split_ifs with h
  · simp
  · intro hnil
    exact h (by simp [hnil])

theorem filled_group_empty (items : List Item) (req : Requirements) (c : String)
    (h : RankingAgent.group_by_category items c = []) :
    RankingAgent.filled_group items req c = [RankingAgent.create_placeholder_item c req] := by
  simp [RankingAgent.filled_group, h]

theorem filter_canonical_all (items : List Item) (req : Requirements) :
    RankingAgent.canonical.filter
        (fun c => !(RankingAgent.filled_group items req c).isEmpty)
      = RankingAgent.canonical := by
  rw [List.filter_eq_self]
  intro c _
  simp only [Bool.not_eq_eq_eq_not, Bool.not_true, List.isEmpty_eq_false]
  exact filled_group_ne_nil items req c

theorem mem_prodLists_cons {α : Type} {l : List α} {ls : List (List α)} {combo : List α}
    (h : combo ∈ RankingAgent.prodLists (l :: ls)) :
    ∃ x ∈ l, ∃ rest ∈ RankingAgent.prodLists ls, combo = x :: rest := by
  simp only [RankingAgent.prodLists, List.mem_flatMap, List.mem_map] at h
  obtain ⟨x, hx, rest, hrest, hcomb⟩ := h
  exact ⟨x, hx, rest, hrest, hcomb.symm⟩

theorem mem_prodLists_cons_intro {α : Type} {l : List α} {ls : List (List α)}
    {x : α} {rest : List α} (hx : x ∈ l) (hr : rest ∈ RankingAgent.prodLists ls) :
    x :: rest ∈ RankingAgent.prodLists (l :: ls) := by
  simp only [RankingAgent.prodLists, List.mem_flatMap, List.mem_map]
  exact ⟨x, hx, rest, hr, rfl⟩

theorem nil_mem_prodLists_nil {α : Type} : ([] : List α) ∈ RankingAgent.prodLists [] := by
  simp [RankingAgent.prodLists]

theorem mem_prodLists4 {α : Type} {l1 l2 l3 l4 : List α} {combo : List α}
    (h : combo ∈ RankingAgent.prodLists [l1, l2, l3, l4]) :
    ∃ a ∈ l1, ∃ b ∈ l2, ∃ c ∈ l3, ∃ d ∈ l4, combo = [a, b, c, d] := by
  obtain ⟨a, ha, r1, hr1, rfl⟩ := mem_prodLists_cons h
  obtain ⟨b, hb, r2, hr2, rfl⟩ := mem_prodLists_cons hr1
  obtain ⟨c, hc, r3, hr3, rfl⟩ := mem_prodLists_cons hr2
  obtain ⟨d, hd, r4, hr4, rfl⟩ := mem_prodLists_cons hr3
  have hnil : r4 = [] := by simpa [RankingAgent.prodLists] using hr4
  subst hnil
  exact ⟨a, ha, b, hb, c, hc, d, hd, rfl⟩

theorem mem_prodLists4_intro {α : Type} {l1 l2 l3 l4 : List α} {a b c d : α}
    (ha : a ∈ l1) (hb : b ∈ l2) (hc : c ∈ l3) (hd : d ∈ l4) :
    [a, b, c, d] ∈ RankingAgent.prodLists [l1, l2, l3, l4] :=
  mem_prodLists_cons_intro ha (mem_prodLists_cons_intro hb
    (mem_prodLists_cons_intro hc (mem_prodLists_cons_intro hd nil_mem_prodLists_nil)))

theorem mem_generate4 {items : List Item} {req : Requirements}
    {pkg : List (String × Item)}
    (h : pkg ∈ RankingAgent.generate_packages (RankingAgent.filled_group items req)) :
    ∃ x1 ∈ RankingAgent.filled_group items req "flights",
    ∃ x2 ∈ RankingAgent.filled_group items req "hotels",
    ∃ x3 ∈ RankingAgent.filled_group items req "meeting_rooms",
    ∃ x4 ∈ RankingAgent.filled_group items req "catering",
      pkg = [("flights", x1), ("hotels", x2), ("meeting_rooms", x3), ("catering", x4)] := by
  simp only [RankingAgent.generate_packages, filter_canonical_all] at h
  have h' := List.take_subset 50 _ h
  rw [List.mem_map] at h'
  obtain ⟨combo, hcombo, rfl⟩ := h'
  have hmap : RankingAgent.canonical.map (RankingAgent.filled_group items req)
      = [RankingAgent.filled_group items req "flights",
         RankingAgent.filled_group items req "hotels",
         RankingAgent.filled_group items req "meeting_rooms",
         RankingAgent.filled_group items req "catering"] := rfl
  rw [hmap] at hcombo
  obtain ⟨x1, h1, x2, h2, x3, h3, x4, h4, rfl⟩ := mem_prodLists4 hcombo
  exact ⟨x1, h1, x2, h2, x3, h3, x4, h4, rfl⟩

theorem generate_packages_ne_nil (items : List Item) (req : Requirements) :
    RankingAgent.generate_packages (RankingAgent.filled_group items req) ≠ [] := by
  simp only [RankingAgent.generate_packages, filter_canonical_all]
  obtain ⟨a1, ha1⟩ := List.exists_mem_of_ne_nil _ (filled_group_ne_nil items req "flights")
  obtain ⟨a2, ha2⟩ := List.exists_mem_of_ne_nil _ (filled_group_ne_nil items req "hotels")
  obtain ⟨a3, ha3⟩ := List.exists_mem_of_ne_nil _ (filled_group_ne_nil items req "meeting_rooms")
  obtain ⟨a4, ha4⟩ := List.exists_mem_of_ne_nil _ (filled_group_ne_nil items req "catering")
  have hmem : [a1, a2, a3, a4] ∈
      RankingAgent.prodLists (RankingAgent.canonical.map (RankingAgent.filled_group items req)) :=
    mem_prodLists4_intro ha1 ha2 ha3 ha4
  intro hnil
  rw [List.take_eq_nil_iff] at hnil
  rcases hnil with h | h
  · exact absurd h (by norm_num)
  · rw [List.map_eq_nil_iff] at h
    rw [h] at hmem
    simp at hmem

theorem rank_ne_nil (items : List Item) (req : Requirements)
    (cw : Option RankingAgent.CustomWeights) :
    RankingAgent.rank items req cw ≠ [] := by
  rw [← List.length_pos_iff_ne_nil, RankingAgent.rank, assignRanks_length,
    List.length_insertionSort, RankingAgent.scored_list, List.length_map]
  exact List.length_pos_iff_ne_nil.mpr (generate_packages_ne_nil items req)

/-- C4: `rank` never fails for missing categories (its output is never
empty), a canonical category with no discovered items is filled with exactly
one synthetic placeholder (price 0, unavailable, rating 0), and every
package in the output carries exactly the four canonical category keys, the
missing ones mapped to the placeholder. -/
theorem c4_placeholder_completeness (items : List Item) (req : Requirements)
    (cw : Option RankingAgent.CustomWeights) :
    RankingAgent.rank items req cw ≠ [] ∧
    (∀ c, RankingAgent.group_by_category items c = [] →
        RankingAgent.filled_group items req c = [RankingAgent.create_placeholder_item c req]) ∧
    (∀ c, (RankingAgent.create_placeholder_item c req).price = 0 ∧
        (RankingAgent.create_placeholder_item c req).availability = false ∧
        (RankingAgent.create_placeholder_item c req).trust_score = some 0) ∧
    (∀ p ∈ RankingAgent.rank items req cw,
      p.items.map Prod.fst = RankingAgent.canonical ∧
      (∀ c ∈ RankingAgent.canonical, RankingAgent.group_by_category items c = [] →
        p.items.lookup c = some (RankingAgent.create_placeholder_item c req))) := by
  refine ⟨rank_ne_nil items req cw, filled_group_empty items req, fun c => ⟨rfl, rfl, rfl⟩, ?_⟩
  intro p hp
  unfold RankingAgent.rank at hp
  obtain ⟨q, hq, k, rfl⟩ := mem_assignRanks hp
  have hq' : q ∈ RankingAgent.scored_list items req cw :=
    (List.mem_insertionSort RankingAgent.scoreGe).mp hq
  simp only [RankingAgent.scored_list, List.mem_map] at hq'
  obtain ⟨pkg, hpkg, rfl⟩ := hq'
  obtain ⟨x1, h1, x2, h2, x3, h3, x4, h4, rfl⟩ := mem_generate4 hpkg
  refine ⟨rfl, ?_⟩
  intro c hc hempty
  have hcan : c = "flights" ∨ c = "hotels" ∨ c = "meeting_rooms" ∨ c = "catering" := by
    simpa [RankingAgent.canonical] using hc
  rcases hcan with rfl | rfl | rfl | rfl
  · have hx : x1 ∈ [RankingAgent.create_placeholder_item "flights" req] := by
      rw [← filled_group_empty items req _ hempty]; exact h1
    have := List.mem_singleton.mp hx
    rw [show (RankingAgent.setRank
      (RankingAgent.score_package [("flights", x1), ("hotels", x2), ("meeting_rooms", x3),
        ("catering", x4)] req cw) k).items.lookup "flights" = some x1 from rfl, this]
  · have hx : x2 ∈ [RankingAgent.create_placeholder_item "hotels" req] := by
      rw [← filled_group_empty items req _ hempty]; exact h2
    have := List.mem_singleton.mp hx
    rw [show (RankingAgent.setRank
      (RankingAgent.score_package [("flights", x1), ("hotels", x2), ("meeting_rooms", x3),
        ("catering", x4)] req cw) k).items.lookup "hotels" = some x2 from rfl, this]
  · have hx : x3 ∈ [RankingAgent.create_placeholder_item "meeting_rooms" req] := by
      rw [← filled_group_empty items req _ hempty]; exact h3
    have := List.mem_singleton.mp hx
    rw [show (RankingAgent.setRank
      (RankingAgent.score_package [("flights", x1), ("hotels", x2), ("meeting_rooms", x3),
        ("catering", x4)] req cw) k).items.lookup "meeting_rooms" = some x3 from rfl, this]
  · have hx : x4 ∈ [RankingAgent.create_placeholder_item "catering" req] := by
      rw [← filled_group_empty items req _ hempty]; exact h4
    have := List.mem_singleton.mp hx
    rw [show (RankingAgent.setRank
      (RankingAgent.score_package [("flights", x1), ("hotels", x2), ("meeting_rooms", x3),
        ("catering", x4)] req cw) k).items.lookup "catering" = some x4 from rfl, this]

/-- Witness for C4: the head of a concrete ranked list (built from an empty
discovered-items list) carries all four canonical category keys. -/
theorem c4_placeholder_completeness_witness :
    ((RankingAgent.rank [] req_c1 none).head (rank_ne_nil [] req_c1 none)).items.map Prod.fst
      = RankingAgent.canonical :=
  (((c4_placeholder_completeness [] req_c1 none).2.2.2 _
    (List.head_mem (rank_ne_nil [] req_c1 none)))).1

/-! ### C3: adjust_weights re-ranks and rebuilds; Scenario C -/

theorem score_package_cw100_flights (x1 x2 x3 x4 : Item) (req : Requirements) :
    (RankingAgent.score_package
        [("flights", x1), ("hotels", x2), ("meeting_rooms", x3), ("catering", x4)]
        req (some cw100)).final_score
      = flights_cat_score (RankingAgent.score_package
          [("flights", x1), ("hotels", x2), ("meeting_rooms", x3), ("catering", x4)]
          req (some cw100)) := by
  have hf : RankingAgent.importance_get (some cw100) "flights" 0 = 100 := rfl
  have hh : RankingAgent.importance_get (some cw100) "hotels" 0 = 0 := rfl
  have hm : RankingAgent.importance_get (some cw100) "meeting_rooms" 0 = 0 := rfl
  have hc : RankingAgent.importance_get (some cw100) "catering" 0 = 0 := rfl
  have hf2 : RankingAgent.importance_get (some cw100) "flights" 25 = 100 := rfl
  have hh2 : RankingAgent.importance_get (some cw100) "hotels" 25 = 0 := rfl
  have hm2 : RankingAgent.importance_get (some cw100) "meeting_rooms" 25 = 0 := rfl
  have hc2 : RankingAgent.importance_get (some cw100) "catering" 25 = 0 := rfl
  simp only [RankingAgent.score_package, flights_cat_score, List.map_cons, List.map_nil,
    List.sum_cons, List.sum_nil, hf, hh, hm, hc, hf2, hh2, hm2, hc2]
  norm_num [List.lookup]

theorem rank_cw100_member (items : List Item) (req : Requirements) :
    ∀ p ∈ RankingAgent.rank items req (some cw100),
      p.final_score = flights_cat_score p := by
  intro p hp
  unfold RankingAgent.rank at hp
  obtain ⟨q, hq, k, rfl⟩ := mem_assignRanks hp
  have hq' : q ∈ RankingAgent.scored_list items req (some cw100) :=
    (List.mem_insertionSort RankingAgent.scoreGe).mp hq
  simp only [RankingAgent.scored_list, List.mem_map] at hq'
  obtain ⟨pkg, hpkg, rfl⟩ := hq'
  obtain ⟨x1, h1, x2, h2, x3, h3, x4, h4, rfl⟩ := mem_generate4 hpkg
  exact score_package_cw100_flights x1 x2 x3 x4 req

theorem pairwise_head_ge {top : ScoredPackage} {rest : List ScoredPackage}
    (h : List.Pairwise RankingAgent.scoreGe (top :: rest)) :
    ∀ p ∈ top :: rest, p.final_score ≤ top.final_score := by
  intro p hp
  rcases List.mem_cons.mp hp with rfl | hp'
  · exact le_refl _
  · exact (List.pairwise_cons.mp h).1 p hp'

/-- C3: an `adjust_weights` modification re-runs the ranker over the
session's original discovered-items list with the new weights, and rebuilds
the cart from the new top-ranked package — the resulting state depends on
the previous cart in no way, so prior swap/remove edits are discarded.  With
`category_importance = {flights: 100, hotels: 0, meeting_rooms: 0,
catering: 0}` every package's final score equals its flights category score,
so the top-ranked package carries a maximal flights category score among all
generated packages. -/
theorem c3_adjust_weights :
    (∀ (st : CrewState) (m : Modification) (env : Env), m.action = "adjust_weights" →
      ∀ hne : RankingAgent.rank st.discovered_items st.requirements m.weights ≠ [],
        RetreatPlannerCrew.modify_cart st m env =
          { st with
              ranked_packages := RankingAgent.rank st.discovered_items st.requirements m.weights
              cart := CartAgent.build_cart env
                ((RankingAgent.rank st.discovered_items st.requirements m.weights).head hne)
                st.requirements }) ∧
    (∀ (items : List Item) (req : Requirements) (top : ScoredPackage)
        (rest : List ScoredPackage),
      RankingAgent.rank items req (some cw100) = top :: rest →
      ∀ p ∈ top :: rest, flights_cat_score p ≤ flights_cat_score top) := by
  constructor
  · intro st m env hact hne
    obtain ⟨top, rest, hr⟩ := List.exists_cons_of_ne_nil hne
    unfold RetreatPlannerCrew.modify_cart
    rw [if_pos hact]
    simp only [hr, List.head_cons]
  · intro items req top rest hr p hp
    have hsorted : List.Pairwise RankingAgent.scoreGe
        (RankingAgent.rank items req (some cw100)) :=
      assignRanks_pairwise 1
        (List.sorted_insertionSort RankingAgent.scoreGe
          (RankingAgent.scored_list items req (some cw100)))
    rw [hr] at hsorted
    have hle : p.final_score ≤ top.final_score := pairwise_head_ge hsorted p hp
    have h1 := rank_cw100_member items req p (by rw [hr]; exact hp)
    have h2 := rank_cw100_member items req top (by rw [hr]; simp)
    rw [← h1, ← h2]
    exact hle

/-- Witness for C3 at a concrete session state. -/
theorem c3_adjust_weights_witness :
    RetreatPlannerCrew.modify_cart st0 mod_aw env0 =
      { st0 with
          ranked_packages := RankingAgent.rank st0.discovered_items st0.requirements mod_aw.weights
          cart := CartAgent.build_cart env0
            ((RankingAgent.rank st0.discovered_items st0.requirements mod_aw.weights).head
              (rank_ne_nil st0.discovered_items st0.requirements mod_aw.weights))
            st0.requirements } :=
  c3_adjust_weights.1 st0 mod_aw env0 rfl
    (rank_ne_nil st0.discovered_items st0.requirements mod_aw.weights)
